import Mathlib

/-!
Verification development for the BRIK front end (src/analizer.py):
a regex-table lexer (class BrikTokenizer) and a lookahead-1 recursive
descent parser with an incremental symbol table (class BrikParser).
The Lean definitions below are a shallow embedding of that Python code;
each definition's doc comment points to the lines of analizer.py it embeds.
-/

namespace Brik

/-- Lexical categories of the master pattern BrikTokenizer._SPEC
(analizer.py lines 27-41).  END_OF_INPUT is not part of _SPEC and is
never produced by the code; the constructor is present so that statements
about its (non-)occurrence in the token stream can be expressed. -/
inductive Kind where
  | COMMENT
  | STRING
  | NUMBER
  | ASSIGN_COLON
  | LDICT
  | RDICT
  | LLIST
  | RLIST
  | COMMA
  | IDENT
  | NEWLINE
  | SKIP
  | MISMATCH
  | END_OF_INPUT
deriving DecidableEq, Repr

/-- Payload of Token.value: Python stores a str for most kinds, an int or a
float for NUMBER (analizer.py lines 65-77).  Floats are kept as their raw
lexeme, since no claim depends on floating-point arithmetic. -/
inductive TokValue where
  | s (v : String)
  | i (n : Int)
  | f (lexeme : String)
deriving DecidableEq, Repr

/-- Token dataclass (analizer.py lines 7-12). -/
structure Token where
  type : Kind
  value : TokValue
  line : Nat
  col : Nat
deriving DecidableEq, Repr

/-- Errors raised while tokenizing: mismatch models the SyntaxError raised at
an unexpected character (analizer.py lines 69-75); decodeErr models the
UnicodeDecodeError that bytes.decode with the unicode-escape codec can raise
(line 66).  fuelExhausted is unreachable when the scanner is run with its
fuel bound (one unit per emitted match, each match consumes a character). -/
inductive LexError where
  | mismatch (line col : Nat) (ch : Char)
  | decodeErr (msg : String)
  | fuelExhausted
deriving DecidableEq, Repr

/-- Python str.isdigit-style check for the regex class backslash-d used in
the NUMBER pattern, restricted to ASCII digits.  (Python str patterns let
backslash-d also match non-ASCII decimal digits; that corner is not
modelled, no claim depends on it.) -/
def isDig (c : Char) : Bool :=
  '0' ≤ c && c ≤ '9'

/-- Characters allowed to start an identifier: regex class A-Za-z_ . -/
def isIdentStart (c : Char) : Bool :=
  c.isAlpha || c = '_'

/-- Characters allowed to continue an identifier: regex class A-Za-z0-9_ . -/
def isIdentCont (c : Char) : Bool :=
  c.isAlpha || isDig c || c = '_'

/-- Span of a Bool predicate over a char list: longest matching prefix and
the rest.  Used to model greedy regex repetition. -/
def spanP (p : Char → Bool) : List Char → List Char × List Char
  | [] => ([], [])
  | c :: cs =>
    if p c then
      let (t, r) := spanP p cs
      (c :: t, r)
    else ([], c :: cs)

/-- COMMENT pattern: a hash then any characters up to (not including) the
next newline (regex  #.*  , dot does not match a newline). -/
def matchComment : List Char → Option (List Char × List Char)
  | '#' :: cs =>
    let (t, r) := spanP (fun c => c ≠ '\n') cs
    some ('#' :: t, r)
  | _ => none

/-- Body of the STRING pattern after the opening quote: zero or more of
(backslash + any non-newline char) or (any char except quote and
backslash), then the closing quote.  Returns (body, rest-after-closing).
Mirrors the regex alternation (backslash dot | [^ quote backslash])* . -/
def matchStrBody : List Char → Option (List Char × List Char)
  | [] => none
  | '"' :: r => some ([], r)
  | '\\' :: c :: r =>
    if c = '\n' then none
    else (matchStrBody r).map (fun p => ('\\' :: c :: p.1, p.2))
  | '\\' :: [] => none
  | c :: r => (matchStrBody r).map (fun p => (c :: p.1, p.2))

/-- STRING pattern: quote, body, quote.  Returns the whole matched text
(quotes included) and the rest. -/
def matchStringTok : List Char → Option (List Char × List Char)
  | '"' :: cs => (matchStrBody cs).map (fun p => ('"' :: p.1 ++ ['"'], p.2))
  | _ => none

/-- NUMBER pattern  -?(?:\d+\.\d*|\.\d+|\d+)  with the alternatives tried in
regex order; the optional minus participates only when one alternative
matches after it. -/
def matchNumber (cs : List Char) : Option (List Char × List Char) :=
  let signed := match cs with
    | '-' :: r => (['-'], r)
    | _ => (([] : List Char), cs)
  let sign := signed.1
  let cs1 := signed.2
  let ds := spanP isDig cs1
  if ds.1 ≠ [] then
    match ds.2 with
    | '.' :: cs3 =>
      let ds2 := spanP isDig cs3
      some (sign ++ ds.1 ++ '.' :: ds2.1, ds2.2)
    | _ => some (sign ++ ds.1, ds.2)
  else
    match ds.2 with
    | '.' :: cs3 =>
      let ds2 := spanP isDig cs3
      if ds2.1 ≠ [] then some (sign ++ '.' :: ds2.1, ds2.2) else none
    | _ => none

/-- ASSIGN_COLON pattern: the exact two characters colon equals. -/
def matchAssign : List Char → Option (List Char × List Char)
  | ':' :: '=' :: r => some ([':', '='], r)
  | _ => none

/-- Single fixed character patterns (LDICT, RDICT, LLIST, RLIST, COMMA). -/
def matchChar (ch : Char) : List Char → Option (List Char × List Char)
  | c :: r => if c = ch then some ([c], r) else none
  | [] => none

/-- IDENT pattern: [A-Za-z_][A-Za-z0-9_]* . -/
def matchIdent : List Char → Option (List Char × List Char)
  | c :: cs =>
    if isIdentStart c then
      let (t, r) := spanP isIdentCont cs
      some (c :: t, r)
    else none
  | [] => none

/-- SKIP pattern: one or more of space, tab, carriage return. -/
def matchSkip : List Char → Option (List Char × List Char)
  | c :: cs =>
    if c = ' ' || c = '\t' || c = '\r' then
      let (t, r) := spanP (fun c => c = ' ' || c = '\t' || c = '\r') cs
      some (c :: t, r)
    else none
  | [] => none

/-- One step of the master pattern (analizer.py line 42): the alternatives of
_SPEC tried in order at the current position, excluding MISMATCH.  A result
of none therefore means the leading character would fall to the MISMATCH
alternative (for a newline NEWLINE always matches first, so none implies the
character is not a newline, matching the regex dot of MISMATCH). -/
def firstMatch (cs : List Char) : Option (Kind × List Char × List Char) :=
  match matchComment cs with
  | some (t, r) => some (.COMMENT, t, r)
  | none =>
  match matchStringTok cs with
  | some (t, r) => some (.STRING, t, r)
  | none =>
  match matchNumber cs with
  | some (t, r) => some (.NUMBER, t, r)
  | none =>
  match matchAssign cs with
  | some (t, r) => some (.ASSIGN_COLON, t, r)
  | none =>
  match matchChar '¿' cs with
  | some (t, r) => some (.LDICT, t, r)
  | none =>
  match matchChar '?' cs with
  | some (t, r) => some (.RDICT, t, r)
  | none =>
  match matchChar '¡' cs with
  | some (t, r) => some (.LLIST, t, r)
  | none =>
  match matchChar '!' cs with
  | some (t, r) => some (.RLIST, t, r)
  | none =>
  match matchChar ',' cs with
  | some (t, r) => some (.COMMA, t, r)
  | none =>
  match matchIdent cs with
  | some (t, r) => some (.IDENT, t, r)
  | none =>
  match matchChar '\n' cs with
  | some (t, r) => some (.NEWLINE, t, r)
  | none =>
  match matchSkip cs with
  | some (t, r) => some (.SKIP, t, r)
  | none => none

/-- UTF-8 encoding of one character, as byte values.  Models the Python
expression  bytes(text, "utf-8")  applied character by character
(analizer.py line 66). -/
def utf8EncodeChar (c : Char) : List Nat :=
  let n := c.toNat
  if n < 128 then [n]
  else if n < 2048 then [192 + n / 64, 128 + n % 64]
  else if n < 65536 then [224 + n / 4096, 128 + (n / 64) % 64, 128 + n % 64]
  else [240 + n / 262144, 128 + (n / 4096) % 64, 128 + (n / 64) % 64, 128 + n % 64]

/-- UTF-8 encoding of a char list. -/
def utf8Encode (cs : List Char) : List Nat :=
  (cs.map utf8EncodeChar).flatten

/-- Value of a hexadecimal digit byte, if it is one. -/
def hexVal (b : Nat) : Option Nat :=
  if 48 ≤ b ∧ b ≤ 57 then some (b - 48)
  else if 97 ≤ b ∧ b ≤ 102 then some (b - 87)
  else if 65 ≤ b ∧ b ≤ 70 then some (b - 55)
  else none

/-- Read exactly k hexadecimal digits from the front of a byte list. -/
def readHex : Nat → List Nat → Option (Nat × List Nat)
  | 0, bs => some (0, bs)
  | _ + 1, [] => none
  | k + 1, b :: bs =>
    (hexVal b).bind (fun d => (readHex k bs).map (fun p => (d * 16 ^ k + p.1, p.2)))

/-- Is the byte an octal digit (0-7)? -/
def isOct (b : Nat) : Bool :=
  48 ≤ b && b ≤ 55

/-- After a first octal digit, greedily read up to two more (CPython reads at
most three octal digits in total for a backslash-octal escape). -/
def readOctTail (v : Nat) : List Nat → Nat × List Nat
  | b2 :: r2 =>
    if isOct b2 then
      let v2 := v * 8 + (b2 - 48)
      match r2 with
      | b3 :: r3 => if isOct b3 then (v2 * 8 + (b3 - 48), r3) else (v2, r2)
      | [] => (v2, r2)
    else (v, b2 :: r2)
  | [] => (v, [])

/-- CPython unicode-escape byte decoder (the codec used by
bytes(...).decode("unicode_escape") at analizer.py line 66).  Bytes outside
escape sequences are decoded as Latin-1.  Recognized escapes: backslash
followed by newline (dropped, line continuation), backslash, single quote,
double quote, b, f, t, n, r, v, a, one to three octal digits, x + 2 hex
digits, u + 4 hex digits, U + 8 hex digits (must be a valid code point);
backslash-N named escapes are rejected here (CPython resolves them through
the Unicode name table, which is not modelled; no claim exercises them).
Any other byte after a backslash is emitted literally TOGETHER WITH the
backslash.  A trailing lone backslash is an error.  Code points that are
not valid Lean chars (lone surrogates) degrade through Char.ofNat; no claim
exercises them.  Fuel is one unit per consumed byte. -/
def uesc : Nat → List Nat → Except String (List Char)
  | 0, _ => .error ("fuel exhausted")
  | _ + 1, [] => .ok []
  | fuel + 1, 92 :: bs =>
    match bs with
    | [] => .error ("backslash at end of string")
    | b :: bs1 =>
      if b = 10 then uesc fuel bs1
      else if b = 92 then (uesc fuel bs1).map (fun l => '\\' :: l)
      else if b = 39 then (uesc fuel bs1).map (fun l => '\'' :: l)
      else if b = 34 then (uesc fuel bs1).map (fun l => '"' :: l)
      else if b = 98 then (uesc fuel bs1).map (fun l => Char.ofNat 8 :: l)
      else if b = 102 then (uesc fuel bs1).map (fun l => Char.ofNat 12 :: l)
      else if b = 116 then (uesc fuel bs1).map (fun l => '\t' :: l)
      else if b = 110 then (uesc fuel bs1).map (fun l => '\n' :: l)
      else if b = 114 then (uesc fuel bs1).map (fun l => Char.ofNat 13 :: l)
      else if b = 118 then (uesc fuel bs1).map (fun l => Char.ofNat 11 :: l)
      else if b = 97 then (uesc fuel bs1).map (fun l => Char.ofNat 7 :: l)
      else if isOct b then
        let p := readOctTail (b - 48) bs1
        (uesc fuel p.2).map (fun l => Char.ofNat p.1 :: l)
      else if b = 120 then
        match readHex 2 bs1 with
        | some (v, r) => (uesc fuel r).map (fun l => Char.ofNat v :: l)
        | none => .error ("invalid x escape")
      else if b = 117 then
        match readHex 4 bs1 with
        | some (v, r) => (uesc fuel r).map (fun l => Char.ofNat v :: l)
        | none => .error ("invalid u escape")
      else if b = 85 then
        match readHex 8 bs1 with
        | some (v, r) =>
          if v ≤ 1114111 then (uesc fuel r).map (fun l => Char.ofNat v :: l)
          else .error ("illegal Unicode character")
        | none => .error ("invalid U escape")
      else if b = 78 then .error ("malformed or unmodelled N escape")
      else (uesc fuel bs1).map (fun l => '\\' :: Char.ofNat b :: l)
  | fuel + 1, b :: bs => (uesc fuel bs).map (fun l => Char.ofNat b :: l)

/-- The full decoding applied to a string token body (the matched text with
its quotes stripped):  bytes(body, "utf-8").decode("unicode_escape")
from analizer.py line 66. -/
def pyUnicodeEscape (body : List Char) : Except String (List Char) :=
  let bs := utf8Encode body
  uesc (bs.length + 1) bs

/-- Decimal value of a digit string (the lexeme is guaranteed by the NUMBER
pattern to be digits only). -/
def digitsToNat (l : List Char) : Nat :=
  l.foldl (fun a c => a * 10 + (c.toNat - 48)) 0

/-- Python int(text) on a NUMBER lexeme without a dot: optional minus sign
then decimal digits (analizer.py line 68). -/
def pyInt : List Char → Int
  | '-' :: rest => -(digitsToNat rest : Int)
  | text => (digitsToNat text : Int)

/-- Token value of a NUMBER lexeme:  float(text) if "." in text else
int(text)  (analizer.py line 68); floats keep their lexeme. -/
def numValue (text : List Char) : TokValue :=
  if text.contains '.' then .f (String.mk text) else .i (pyInt text)

/-- The tokenize loop (analizer.py lines 47-81) as a scanner over the
remaining characters.  line and col are the 1-based position of the next
character; Python computes col as offset - line_start + 1, which equals a
per-character column counter that is reset to 1 only when a NEWLINE token is
consumed, so the two bookkeeping styles agree (also for tokens whose text
spans a raw newline, such as multi-line strings).  An error return models
the raise: no tokens are produced past the offending character.  Fuel is
one unit per match; every match consumes at least one character, so
length + 1 units always suffice. -/
def scan : Nat → List Char → Nat → Nat → Except LexError (List Token)
  | 0, _, _, _ => .error .fuelExhausted
  | _ + 1, [], _, _ => .ok []
  | fuel + 1, c :: cs, line, col =>
    match firstMatch (c :: cs) with
    | none => .error (.mismatch line col c)
    | some (k, text, rest) =>
      match k with
      | .NEWLINE => scan fuel rest (line + 1) 1
      | .SKIP => scan fuel rest line (col + text.length)
      | .COMMENT => scan fuel rest line (col + text.length)
      | .STRING =>
        match pyUnicodeEscape (text.drop 1).dropLast with
        | .error e => .error (.decodeErr e)
        | .ok chars =>
          match scan fuel rest line (col + text.length) with
          | .error e => .error e
          | .ok ts => .ok (⟨.STRING, .s (String.mk chars), line, col⟩ :: ts)
      | .NUMBER =>
        match scan fuel rest line (col + text.length) with
        | .error e => .error e
        | .ok ts => .ok (⟨.NUMBER, numValue text, line, col⟩ :: ts)
      | k =>
        match scan fuel rest line (col + text.length) with
        | .error e => .error e
        | .ok ts => .ok (⟨k, .s (String.mk text), line, col⟩ :: ts)

/-- BrikTokenizer.tokenize (analizer.py lines 47-81): scan the whole source
starting at line 1, column 1. -/
def tokenize (s : String) : Except LexError (List Token) :=
  scan (s.data.length + 1) s.data 1 1

/-- Parsed values (the entries of the symbol table and of composites).
str, intV, floatV mirror the Python str, int, float token payloads; list is
a Python list; dict is a Python insertion-ordered dict as an association
list; ref models the placeholder dict with the single key "ref" built at
analizer.py line 176 for an identifier not present in the symbol table. -/
inductive Value where
  | str (s : String)
  | intV (n : Int)
  | floatV (lexeme : String)
  | list (xs : List Value)
  | dict (entries : List (String × Value))
  | ref (name : String)

/-- ParseError dataclass (analizer.py lines 83-89). -/
structure ParseErr where
  message : String
  line : Nat
  col : Nat
deriving DecidableEq, Repr

/-- Unreachable sentinel for exhausted fuel in the parser; the concrete
evaluations below all run with enough fuel never to reach it. -/
def fuelErr : ParseErr :=
  ⟨"fuel agotado", 0, 0⟩

/-- Parser state: the not yet consumed suffix of the token list, the most
recently consumed token (tokens[i-1], used for the end-of-file error
position in _eat), and the symbol table self.symbols, an insertion-ordered
dict as an association list (analizer.py lines 109-112). -/
structure PState where
  rest : List Token
  prev : Option Token
  symbols : List (String × Value)

/-- Position used by _eat when the input is exhausted: the last consumed
token, or (1, 1) when nothing was consumed yet (analizer.py lines 120-122). -/
def eofPos (st : PState) : Nat × Nat :=
  match st.prev with
  | some t => (t.line, t.col)
  | none => (1, 1)

/-- Insertion-ordered dict update  d[k] = v : replace in place if the key
exists, else append.  Used for dict literals and for the symbol table. -/
def dinsert : List (String × Value) → String → Value → List (String × Value)
  | [], k, v => [(k, v)]
  | (k1, v1) :: rest, k, v =>
    if k1 = k then (k1, v) :: rest else (k1, v1) :: dinsert rest k v

/-- Lookup in an association list, modelling  name in d  and  d[name] . -/
def lookupSym : List (String × Value) → String → Option Value
  | [], _ => none
  | (k1, v1) :: rest, k => if k1 = k then some v1 else lookupSym rest k

/-- The string payload of a token value (IDENT and punctuation tokens always
carry a string). -/
def tokStr : TokValue → String
  | .s v => v
  | .i n => toString n
  | .f lexeme => lexeme

/-- A scalar token value as a parsed Value. -/
def tvToValue : TokValue → Value
  | .s v => .str v
  | .i n => .intV n
  | .f lexeme => .floatV lexeme

/-- BrikParser._eat (analizer.py lines 117-129): error at end of input,
error when an expectation list is given (and nonempty, as Python truthiness
tests the list) and the head token is not in it, else consume the head. -/
def eat (st : PState) (expected : Option (List Kind)) : Except ParseErr (Token × PState) :=
  match st.rest with
  | [] => .error ⟨"Fin de archivo inesperado", (eofPos st).1, (eofPos st).2⟩
  | tok :: rest =>
    match expected with
    | some kinds =>
      if kinds ≠ [] ∧ tok.type ∉ kinds then
        .error ⟨"Se esperaba otro tipo de token", tok.line, tok.col⟩
      else .ok (tok, ⟨rest, some tok, st.symbols⟩)
    | none => .ok (tok, ⟨rest, some tok, st.symbols⟩)

/-- BrikParser._match (analizer.py lines 131-136): consume the head token if
its kind is among the given ones, else leave the state unchanged. -/
def matchTok (st : PState) (types : List Kind) : Option (Token × PState) :=
  match st.rest with
  | tok :: rest =>
    if tok.type ∈ types then some (tok, ⟨rest, some tok, st.symbols⟩) else none
  | [] => none

mutual

/-- BrikParser._parse_expr (analizer.py lines 162-182).  The if chain on the
peeked token kind mirrors the Python chain; for an IDENT the current symbol
table decides between the bound value and a ref placeholder (lines 171-176).
Fuel bounds the recursion depth into composite literals. -/
def parseExpr : Nat → PState → Except ParseErr (Value × PState)
  | 0, _ => .error fuelErr
  | fuel + 1, st =>
    match st.rest with
    | [] => .error ⟨"Se esperaba una expresion", 1, 1⟩
    | tok :: _ =>
      if tok.type = .STRING then
        match eat st none with
        | .error e => .error e
        | .ok (t, st1) => .ok (tvToValue t.value, st1)
      else if tok.type = .NUMBER then
        match eat st none with
        | .error e => .error e
        | .ok (t, st1) => .ok (tvToValue t.value, st1)
      else if tok.type = .IDENT then
        match eat st none with
        | .error e => .error e
        | .ok (t, st1) =>
          match lookupSym st1.symbols (tokStr t.value) with
          | some v => .ok (v, st1)
          | none => .ok (.ref (tokStr t.value), st1)
      else if tok.type = .LLIST then parseList fuel st
      else if tok.type = .LDICT then parseDict fuel st
      else .error ⟨"Expresion inesperada", tok.line, tok.col⟩

/-- BrikParser._parse_list (analizer.py lines 185-198): opening bracket, the
empty case, then the element loop. -/
def parseList : Nat → PState → Except ParseErr (Value × PState)
  | 0, _ => .error fuelErr
  | fuel + 1, st =>
    match eat st (some [.LLIST]) with
    | .error e => .error e
    | .ok (_, st1) =>
      match matchTok st1 [.RLIST] with
      | some (_, st2) => .ok (.list [], st2)
      | none => parseListLoop fuel st1 []

/-- The while loop of _parse_list (analizer.py lines 192-197): parse an
element, continue on a comma, otherwise require the closing bracket. -/
def parseListLoop : Nat → PState → List Value → Except ParseErr (Value × PState)
  | 0, _, _ => .error fuelErr
  | fuel + 1, st, items =>
    match parseExpr fuel st with
    | .error e => .error e
    | .ok (v, st1) =>
      let items1 := items ++ [v]
      match matchTok st1 [.COMMA] with
      | some (_, st2) => parseListLoop fuel st2 items1
      | none =>
        match eat st1 (some [.RLIST]) with
        | .error e => .error e
        | .ok (_, st2) => .ok (.list items1, st2)

/-- BrikParser._parse_dict (analizer.py lines 200-225): opening bracket, the
empty case, then the field loop. -/
def parseDict : Nat → PState → Except ParseErr (Value × PState)
  | 0, _ => .error fuelErr
  | fuel + 1, st =>
    match eat st (some [.LDICT]) with
    | .error e => .error e
    | .ok (_, st1) =>
      match matchTok st1 [.RDICT] with
      | some (_, st2) => .ok (.dict [], st2)
      | none => parseDictLoop fuel st1 []

/-- The while loop of _parse_dict (analizer.py lines 207-224): skip a comma
at the loop head, parse key := value, then either continue on a comma,
fail at end of input, consume the closing bracket, or (any other token)
fall through to the loop head again. -/
def parseDictLoop : Nat → PState → List (String × Value) → Except ParseErr (Value × PState)
  | 0, _, _ => .error fuelErr
  | fuel + 1, st, data =>
    match matchTok st [.COMMA] with
    | some (_, st1) => parseDictLoop fuel st1 data
    | none =>
      match eat st (some [.IDENT]) with
      | .error e => .error e
      | .ok (keyTok, st1) =>
        match eat st1 (some [.ASSIGN_COLON]) with
        | .error e => .error e
        | .ok (_, st2) =>
          match parseExpr fuel st2 with
          | .error e => .error e
          | .ok (v, st3) =>
            let data1 := dinsert data (tokStr keyTok.value) v
            match matchTok st3 [.COMMA] with
            | some (_, st4) => parseDictLoop fuel st4 data1
            | none =>
              match st3.rest with
              | [] => .error ⟨"Falta cerrar el diccionario", keyTok.line, keyTok.col⟩
              | nxt :: _ =>
                if nxt.type = .RDICT then
                  match eat st3 (some [.RDICT]) with
                  | .error e => .error e
                  | .ok (_, st4) => .ok (.dict data1, st4)
                else parseDictLoop fuel st3 data1

end

/-- BrikParser._parse_assignment (analizer.py lines 155-159): key, the
assignment operator, an expression, then the symbol table update. -/
def parseAssignment (fuel : Nat) (st : PState) : Except ParseErr PState :=
  match eat st (some [.IDENT]) with
  | .error e => .error e
  | .ok (keyTok, st1) =>
    match eat st1 (some [.ASSIGN_COLON]) with
    | .error e => .error e
    | .ok (_, st2) =>
      match parseExpr fuel st2 with
      | .error e => .error e
      | .ok (v, st3) =>
        .ok ⟨st3.rest, st3.prev, dinsert st3.symbols (tokStr keyTok.value) v⟩

/-- BrikParser.parse (analizer.py lines 139-153): skip stray top-level
commas, parse assignments starting at an IDENT, error on any other leading
token, and return the symbol table when the tokens are exhausted. -/
def parseProgram : Nat → PState → Except ParseErr (List (String × Value))
  | 0, _ => .error fuelErr
  | fuel + 1, st =>
    match st.rest with
    | [] => .ok st.symbols
    | t :: rest =>
      if t.type = .COMMA then parseProgram fuel ⟨rest, some t, st.symbols⟩
      else if t.type = .IDENT then
        match parseAssignment fuel st with
        | .error e => .error e
        | .ok st1 => parseProgram fuel st1
      else .error ⟨"Se esperaba un identificador al inicio de sentencia", t.line, t.col⟩

/-- Run BrikParser.parse on a token list: initial index 0 and empty symbol
table; the fuel bound covers both the statement loop and the expression
recursion depth (each unit of depth consumes at least one token). -/
def parseTokens (toks : List Token) : Except ParseErr (List (String × Value)) :=
  parseProgram (2 * toks.length + 2) ⟨toks, none, []⟩

/-- Errors of the whole front end: a lexical error or a parse error. -/
inductive FrontError where
  | lex (e : LexError)
  | parse (e : ParseErr)

/-- The whole pipeline of the execution zone (analizer.py lines 258-280):
tokenize, then parse the token list into the symbol table. -/
def parseSource (s : String) : Except FrontError (List (String × Value)) :=
  match tokenize s with
  | .error e => .error (.lex e)
  | .ok ts =>
    match parseTokens ts with
    | .error e => .error (.parse e)
    | .ok sym => .ok sym

/-- Did a computation fail? -/
def isError {ε α : Type} : Except ε α → Bool
  | .error _ => true
  | .ok _ => false

/-- Both coordinates of a token position are at least 1. -/
def posOk (t : Token) : Bool :=
  decide (1 ≤ t.line) && decide (1 ≤ t.col)

/-- Lexicographic order on token positions (line, then column). -/
def posLeB (a b : Token) : Bool :=
  decide (a.line < b.line) || (decide (a.line = b.line) && decide (a.col ≤ b.col))

/-- Successive tokens have non-decreasing positions. -/
def sortedPos : List Token → Bool
  | [] => true
  | [_] => true
  | a :: b :: r => posLeB a b && sortedPos (b :: r)

/-- The token position is at or after the position (l, c). -/
def posLePair (l c : Nat) (t : Token) : Bool :=
  decide (l < t.line) || (decide (l = t.line) && decide (c ≤ t.col))

/-- All tokens of the list sit at or after the position (l, c). -/
def boundedBy (l c : Nat) (ts : List Token) : Bool :=
  ts.all (posLePair l c)

/-- The token kinds the tokenize loop can actually append (every kind of
_SPEC except the discarded COMMENT, NEWLINE, SKIP and the error-raising
MISMATCH; END_OF_INPUT is never appended). -/
def emittedKind (t : Token) : Bool :=
  decide (t.type ∈ [Kind.STRING, Kind.NUMBER, Kind.ASSIGN_COLON, Kind.LDICT,
    Kind.RDICT, Kind.LLIST, Kind.RLIST, Kind.COMMA, Kind.IDENT])

/-- Modelled from the spec: the position-tracking rule of section 4.1
(line starts at 1; every newline character consumed increments it) predicts,
for the character at a given offset, a line number of one plus the number of
newline characters strictly before that offset. -/
def claimLine (s : String) (offset : Nat) : Nat :=
  1 + (s.data.take offset).count '\n'

/-- Bytes that begin a recognized escape sequence after a backslash in the
unicode-escape codec (newline, backslash, both quotes, b f t n r v a, the
octal digits, x, u, U, N). -/
def escStarter (b : Nat) : Bool :=
  b ∈ [10, 92, 39, 34, 98, 102, 116, 110, 114, 118, 97,
       48, 49, 50, 51, 52, 53, 54, 55, 120, 117, 85, 78]

instance instDecEqExceptSLC : DecidableEq (Except String (List Char)) := fun a b =>
  match a, b with
  | .ok x, .ok y =>
    if h : x = y then .isTrue (by rw [h]) else .isFalse (fun hh => h (by cases hh; rfl))
  | .error x, .error y =>
    if h : x = y then .isTrue (by rw [h]) else .isFalse (fun hh => h (by cases hh; rfl))
  | .ok _, .error _ => .isFalse (fun hh => by cases hh)
  | .error _, .ok _ => .isFalse (fun hh => by cases hh)

/-- Weakening the lower bound on one token position. -/
lemma posLePair_mono {l c l' c' : Nat} {t : Token}
    (h : l < l' ∨ (l = l' ∧ c ≤ c')) (hp : posLePair l' c' t = true) :
    posLePair l c t = true := by
  simp only [posLePair, Bool.or_eq_true, Bool.and_eq_true, decide_eq_true_eq] at hp ⊢
  omega

/-- Weakening the lower bound on a token list. -/
lemma boundedBy_mono {l c l' c' : Nat} {ts : List Token}
    (h : l < l' ∨ (l = l' ∧ c ≤ c')) (hb : boundedBy l' c' ts = true) :
    boundedBy l c ts = true := by
  simp only [boundedBy, List.all_eq_true] at hb ⊢
  exact fun t ht => posLePair_mono h (hb t ht)

/-- Consing a freshly emitted token onto an already well-positioned tail
keeps every invariant, provided the tail is bounded by the position right
after the token text. -/
lemma scan_cons_good {line col len : Nat} {k : Kind} {v : TokValue} {ts : List Token}
    (h1 : 1 ≤ line) (h2 : 1 ≤ col)
    (hk : emittedKind ⟨k, v, line, col⟩ = true)
    (hall : ts.all posOk = true) (hkind : ts.all emittedKind = true)
    (hsort : sortedPos ts = true) (hbnd : boundedBy line (col + len) ts = true) :
    (((⟨k, v, line, col⟩ : Token) :: ts).all posOk = true) ∧
    (((⟨k, v, line, col⟩ : Token) :: ts).all emittedKind = true) ∧
    (sortedPos ((⟨k, v, line, col⟩ : Token) :: ts) = true) ∧
    (boundedBy line col ((⟨k, v, line, col⟩ : Token) :: ts) = true) := by
  have hw : boundedBy line col ts = true :=
    boundedBy_mono (Or.inr ⟨rfl, Nat.le_add_right col len⟩) hbnd
  refine ⟨?_, ?_, ?_, ?_⟩
  · simp only [List.all_cons, Bool.and_eq_true]
    exact ⟨by simp [posOk, h1, h2], hall⟩
  · simp only [List.all_cons, Bool.and_eq_true]
    exact ⟨hk, hkind⟩
  · cases ts with
    | nil => rfl
    | cons b r =>
      have hb : posLePair line (col + len) b = true := by
        simp only [boundedBy, List.all_cons, Bool.and_eq_true] at hbnd
        exact hbnd.1
      have hblt : posLePair line col b = true :=
        posLePair_mono (Or.inr ⟨rfl, Nat.le_add_right col len⟩) hb
      have : posLeB ⟨k, v, line, col⟩ b = true := hblt
      simp only [sortedPos, Bool.and_eq_true]
      exact ⟨this, hsort⟩
  · simp only [boundedBy, List.all_cons, Bool.and_eq_true]
    refine ⟨?_, hw⟩
    simp [posLePair]

/-- The master pattern step never reports the MISMATCH or the synthetic
END_OF_INPUT category (the first is turned into an error by the scanner,
the second exists only in the claims vocabulary). -/
lemma firstMatch_kinds {cs text rest : List Char} {k : Kind}
    (h : firstMatch cs = some (k, text, rest)) :
    k ≠ .MISMATCH ∧ k ≠ .END_OF_INPUT := by
  unfold firstMatch at h
  repeat' split at h
  all_goals first
    | (injection h with h1; injection h1 with ha hb; subst ha; exact ⟨by decide, by decide⟩)
    | (exact absurd h (by simp))

/-- Main scanner invariant: a successful scan that starts at a position with
both coordinates at least 1 produces tokens whose kinds are the emitted
ones, whose positions have both coordinates at least 1, are non-decreasing
in lexicographic order, and all sit at or after the start position. -/
lemma scan_inv : ∀ (fuel : Nat) (cs : List Char) (line col : Nat) (ts : List Token),
    scan fuel cs line col = .ok ts → 1 ≤ line → 1 ≤ col →
    ts.all posOk = true ∧ ts.all emittedKind = true ∧
    sortedPos ts = true ∧ boundedBy line col ts = true := by
  intro fuel
  induction fuel with
  | zero => intro cs line col ts h _ _; simp [scan] at h
  | succ fuel ih =>
    intro cs line col ts h h1 h2
    cases cs with
    | nil =>
      simp only [scan] at h
      cases h
      exact ⟨rfl, rfl, rfl, rfl⟩
    | cons c cs' =>
      simp only [scan] at h
      cases hfm : firstMatch (c :: cs') with
      | none => rw [hfm] at h; cases h
      | some p =>
        obtain ⟨k, text, rest⟩ := p
        rw [hfm] at h
        dsimp only at h
        cases k <;> dsimp only at h
        case NEWLINE =>
          have hr := ih rest (line + 1) 1 ts h (by omega) (by omega)
          exact ⟨hr.1, hr.2.1, hr.2.2.1, boundedBy_mono (Or.inl (by omega)) hr.2.2.2⟩
        case SKIP =>
          have hr := ih rest line (col + text.length) ts h h1 (by omega)
          exact ⟨hr.1, hr.2.1, hr.2.2.1,
            boundedBy_mono (Or.inr ⟨rfl, Nat.le_add_right col text.length⟩) hr.2.2.2⟩
        case COMMENT =>
          have hr := ih rest line (col + text.length) ts h h1 (by omega)
          exact ⟨hr.1, hr.2.1, hr.2.2.1,
            boundedBy_mono (Or.inr ⟨rfl, Nat.le_add_right col text.length⟩) hr.2.2.2⟩
        case MISMATCH => exact absurd rfl (firstMatch_kinds hfm).1
        case END_OF_INPUT => exact absurd rfl (firstMatch_kinds hfm).2
        case STRING =>
          cases hdec : pyUnicodeEscape (text.drop 1).dropLast with
          | error e => rw [hdec] at h; cases h
          | ok chars =>
            rw [hdec] at h
            cases hrec : scan fuel rest line (col + text.length) with
            | error e => rw [hrec] at h; cases h
            | ok ts' =>
              rw [hrec] at h
              cases h
              have hr := ih rest line (col + text.length) ts' hrec h1 (by omega)
              exact scan_cons_good h1 h2 (by simp [emittedKind]) hr.1 hr.2.1 hr.2.2.1 hr.2.2.2
        all_goals
          cases hrec : scan fuel rest line (col + text.length) with
          | error e => rw [hrec] at h; cases h
          | ok ts' =>
            rw [hrec] at h
            cases h
            have hr := ih rest line (col + text.length) ts' hrec h1 (by omega)
            exact scan_cons_good h1 h2 (by simp [emittedKind]) hr.1 hr.2.1 hr.2.2.1 hr.2.2.2

/-- C1: eager left-to-right resolution captures values at time of use.  For
the input  a := 1, b := a, a := 2  parsing succeeds, b is bound to 1 (the
value a had when the right-hand side of b was parsed) and a is bound to 2
(the later binding overwrites in place, without changing the value captured
for b). -/
theorem eager_capture_example :
    parseSource ("a := 1, b := a, a := 2") =
      .ok [("a", .intV 2), ("b", .intV 1)] := rfl

/-- C9: a list literal whose opening bracket is immediately followed by the
closing bracket parses to an empty list, and similarly for a record; both
parses succeed. -/
theorem empty_composites :
    parseSource ("e := ¡ !") = .ok [("e", .list [])] ∧
    parseSource ("d := ¿ ?") = .ok [("d", .dict [])] :=
  ⟨rfl, rfl⟩

/-- C5 counterexample: the claim says a record body ending with a comma
directly before the closing bracket parses successfully, but the code
reaches _eat(["IDENT"]) on the closing bracket and raises, at the position
of that bracket (line 1, column 16 here). -/
theorem record_trailing_comma_counterexample :
    parseSource ("d := ¿ x := 1, ?") =
      .error (.parse ⟨"Se esperaba otro tipo de token", 1, 16⟩) := rfl

/-- C5 amended: inside a record, stray extra commas are skipped at the loop
head only when another field follows (doubled commas between fields and
leading commas before a field are tolerated); a comma with nothing
following before the closing bracket is a syntax error, because after the
comma the loop requires another IDENT key.  The list production does not
skip stray commas at all: a stray comma inside a list with no expression
following is a syntax error. -/
theorem record_comma_tolerance :
    parseSource ("d := ¿ x := 1,, y := 2 ?") =
      .ok [("d", .dict [("x", .intV 1), ("y", .intV 2)])] ∧
    parseSource ("d := ¿ , x := 1 ?") = .ok [("d", .dict [("x", .intV 1)])] ∧
    isError (parseSource ("d := ¿ x := 1, ?")) = true ∧
    isError (parseSource ("l := ¡ 1, !")) = true :=
  ⟨rfl, rfl, rfl, rfl⟩

/-- C2: an identifier used as an expression operand whose name is not in
the symbol table at the moment it is encountered does not make parsing
fail: the expression evaluates to a ref placeholder carrying exactly that
name (analizer.py lines 171-176); and, end to end, the source x := y with
y never defined parses successfully, binding x to a ref naming y. -/
theorem unresolved_ident_yields_ref :
    (∀ (fuel : Nat) (rest : List Token) (prev : Option Token)
        (symbols : List (String × Value)) (name : String) (l c : Nat),
      lookupSym symbols name = none →
      parseExpr (fuel + 1) ⟨⟨.IDENT, .s name, l, c⟩ :: rest, prev, symbols⟩ =
        .ok (.ref name, ⟨rest, some ⟨.IDENT, .s name, l, c⟩, symbols⟩)) ∧
    parseSource ("x := y") = .ok [("x", .ref "y")] := by
  refine ⟨?_, rfl⟩
  intro fuel rest prev symbols name l c h
  simp [parseExpr, eat, tokStr, h]

/-- C2 witness: the general statement applied to the single token y with an
empty symbol table (the state reached while parsing x := y). -/
theorem unresolved_ident_yields_ref_witness :
    parseExpr 1 ⟨[⟨.IDENT, .s "y", 1, 6⟩], none, []⟩ =
      .ok (.ref "y", ⟨[], some ⟨.IDENT, .s "y", 1, 6⟩, []⟩) :=
  unresolved_ident_yields_ref.1 0 [] none [] "y" 1 6 rfl

/-- C10: ref placeholders propagate through resolution unchanged.  If the
name x is currently bound to a ref naming y, a later use of x as an
expression operand evaluates to that same ref naming y (the result never
mentions x); and, end to end, after x := y, z := x with y unbound, z is
bound to a ref naming y. -/
theorem ref_propagates_through_lookup :
    (∀ (fuel : Nat) (rest : List Token) (prev : Option Token)
        (symbols : List (String × Value)) (x y : String) (l c : Nat),
      lookupSym symbols x = some (.ref y) →
      parseExpr (fuel + 1) ⟨⟨.IDENT, .s x, l, c⟩ :: rest, prev, symbols⟩ =
        .ok (.ref y, ⟨rest, some ⟨.IDENT, .s x, l, c⟩, symbols⟩)) ∧
    parseSource ("x := y, z := x") = .ok [("x", .ref "y"), ("z", .ref "y")] := by
  refine ⟨?_, rfl⟩
  intro fuel rest prev symbols x y l c h
  simp [parseExpr, eat, tokStr, h]

/-- C10 witness: the general statement applied to a symbol table binding x
to a ref naming y (the state reached while parsing z := x after x := y). -/
theorem ref_propagates_through_lookup_witness :
    parseExpr 1 ⟨[⟨.IDENT, .s "x", 1, 11⟩], none, [("x", .ref "y")]⟩ =
      .ok (.ref "y", ⟨[], some ⟨.IDENT, .s "x", 1, 11⟩, [("x", .ref "y")]⟩) :=
  ref_propagates_through_lookup.1 0 [] none [("x", .ref "y")] "x" "y" 1 11 rfl

/-- Every token an emitted kind admits is distinct from END_OF_INPUT. -/
lemma emittedKind_ne_eoi {t : Token} (h : emittedKind t = true) :
    t.type ≠ Kind.END_OF_INPUT := by
  obtain ⟨k, v, l, c⟩ := t
  simp only [emittedKind, decide_eq_true_eq, List.mem_cons, List.not_mem_nil, or_false] at h
  intro hc
  simp only at hc
  subst hc
  simp at h

/-- C3 counterexample: the claim says every successfully tokenized source
yields a token sequence ending in a synthetic END_OF_INPUT token, but
tokenize returns the matched tokens only (analizer.py lines 79-81 never
append one): for the source a := 1 the last token is the NUMBER token and
no token of the sequence has kind END_OF_INPUT. -/
theorem end_of_input_token_counterexample :
    tokenize ("a := 1") =
      .ok [⟨.IDENT, .s ("a"), 1, 1⟩, ⟨.ASSIGN_COLON, .s (":="), 1, 3⟩,
           ⟨.NUMBER, .i 1, 1, 6⟩] ∧
    (([⟨.IDENT, .s ("a"), 1, 1⟩, ⟨.ASSIGN_COLON, .s (":="), 1, 3⟩,
       ⟨.NUMBER, .i 1, 1, 6⟩] : List Token).all
      (fun t => decide (t.type ≠ Kind.END_OF_INPUT))) = true :=
  ⟨rfl, rfl⟩

/-- C3 amended: the lexer appends no synthetic END_OF_INPUT token; for every
source that tokenizes without error, no token of the returned sequence has
kind END_OF_INPUT (end of input is signalled to the parser by exhaustion of
the token list instead). -/
theorem no_end_of_input_token (s : String) (ts : List Token)
    (h : tokenize s = .ok ts) :
    ts.all (fun t => decide (t.type ≠ Kind.END_OF_INPUT)) = true := by
  have h' : scan (s.data.length + 1) s.data 1 1 = .ok ts := h
  have hr := scan_inv (s.data.length + 1) s.data 1 1 ts h' (le_refl 1) (le_refl 1)
  have hk := hr.2.1
  simp only [List.all_eq_true, decide_eq_true_eq] at hk ⊢
  exact fun t ht => emittedKind_ne_eoi (hk t ht)

/-- C3 witness: the amended statement applied to the source b := 3. -/
theorem no_end_of_input_token_witness :
    (([⟨Kind.IDENT, .s ("b"), 1, 1⟩, ⟨Kind.ASSIGN_COLON, .s (":="), 1, 3⟩,
       ⟨Kind.NUMBER, .i 3, 1, 6⟩] : List Token).all
      (fun t => decide (t.type ≠ Kind.END_OF_INPUT))) = true :=
  no_end_of_input_token ("b := 3") _ rfl

set_option maxRecDepth 4000 in
/-- Helper for C4: for every ASCII byte that does not begin a recognized
escape sequence, the unicode-escape decoder keeps the backslash and emits
the byte unchanged after it.  Settled by exhaustive evaluation over the
128 ASCII bytes. -/
lemma uesc_default_nat :
    ∀ b : Nat, b < 128 → escStarter b = false →
      uesc 3 [92, b] = .ok ['\\', Char.ofNat b] := by decide

/-- Helper for C4: an ASCII character is a single UTF-8 byte. -/
lemma utf8_ascii {c : Char} (h : c.toNat < 128) : utf8EncodeChar c = [c.toNat] := by
  simp only [utf8EncodeChar]
  rw [if_pos h]

/-- C4 counterexample: the claim says any other character after a backslash
is emitted literally with the backslash dropped, but for the source
a := "\q" the STRING token decodes to the two characters backslash q (the
backslash is kept), not to the single character q. -/
theorem escape_backslash_kept_counterexample :
    tokenize ("a := \"\\q\"") =
      .ok [⟨.IDENT, .s ("a"), 1, 1⟩, ⟨.ASSIGN_COLON, .s (":="), 1, 3⟩,
           ⟨.STRING, .s ("\\q"), 1, 6⟩] ∧
    ("\\q" : String) ≠ ("q" : String) :=
  ⟨rfl, by decide⟩

/-- C4 amended: string literal decoding resolves the escape sequences for
n, t, the double quote and the backslash; for any other ASCII character
after a backslash that does not begin one of the further escapes the codec
recognizes (newline, quotes, b f t n r v a, octal digits, x, u, U, N), the
decoded value keeps the backslash and that character (the backslash is NOT
dropped); and some malformed recognized escapes, such as x followed by
non-hexadecimal characters, raise a decoding error rather than being
emitted literally. -/
theorem escape_decoding :
    pyUnicodeEscape ['\\', 'n'] = .ok ['\n'] ∧
    pyUnicodeEscape ['\\', 't'] = .ok ['\t'] ∧
    pyUnicodeEscape ['\\', '"'] = .ok ['"'] ∧
    pyUnicodeEscape ['\\', '\\'] = .ok ['\\'] ∧
    (∀ c : Char, c.toNat < 128 → escStarter c.toNat = false →
      pyUnicodeEscape ['\\', c] = .ok ['\\', c]) ∧
    isError (pyUnicodeEscape ['\\', 'x', 'z', 'z']) = true := by
  refine ⟨rfl, rfl, rfl, rfl, ?_, rfl⟩
  intro c h1 h2
  have hb := uesc_default_nat c.toNat h1 h2
  rw [Char.ofNat_toNat] at hb
  unfold pyUnicodeEscape utf8Encode
  simp only [List.map_cons, List.map_nil, List.flatten_cons, List.flatten_nil]
  rw [utf8_ascii h1]
  rw [show utf8EncodeChar '\\' = [92] from rfl]
  simpa using hb

/-- C4 witness: the general part applied to the character q, which begins no
recognized escape: backslash q decodes to backslash q. -/
theorem escape_decoding_witness :
    pyUnicodeEscape ['\\', 'q'] = .ok ['\\', 'q'] :=
  escape_decoding.2.2.2.2.1 'q' (by decide) (by decide)

/-- C6: when the scanner is at an opening double quote from which the string
pattern cannot complete (no closing quote before the end of the input), it
fails with a lexical error positioned exactly at that opening quote, whose
offending character is the quote itself (the quote falls through to the
MISMATCH alternative, analizer.py lines 69-75). -/
theorem unterminated_string_error (fuel : Nat) (rest : List Char) (line col : Nat)
    (h : matchStringTok ('"' :: rest) = none) :
    scan (fuel + 1) ('"' :: rest) line col = .error (.mismatch line col '"') := by
  have hfm : firstMatch ('"' :: rest) = none := by
    unfold firstMatch
    rw [h]
    rfl
  simp only [scan]
  rw [hfm]

/-- C6 witness: an unterminated string whose opening quote sits at line 3,
column 5 (the position used by the spec example) reports exactly that
position. -/
theorem unterminated_string_error_witness :
    tokenize ("a := 1\nb := 2\nc:= \"x") = .error (.mismatch 3 5 '"') :=
  Eq.trans
    (show tokenize ("a := 1\nb := 2\nc:= \"x") = scan 6 ['"', 'x'] 3 5 from rfl)
    (unterminated_string_error 5 ['x'] 3 5 rfl)

/-- C7: tokenization fails at the first character that matches none of the
recognized lexical categories, raising an error that carries the current
1-based line and column and the offending character itself; the error
return produces no tokens at all past that character. -/
theorem invalid_character_error (fuel : Nat) (c : Char) (rest : List Char)
    (line col : Nat) (h : firstMatch (c :: rest) = none) :
    scan (fuel + 1) (c :: rest) line col = .error (.mismatch line col c) := by
  simp only [scan]
  rw [h]

/-- C7 witness: the at sign matches no category; tokenizing a @ fails at
line 1, column 3 carrying the at sign, and no tokens are returned. -/
theorem invalid_character_error_witness :
    tokenize ("a @") = .error (.mismatch 1 3 '@') :=
  Eq.trans
    (show tokenize ("a @") = scan 2 ['@'] 1 3 from rfl)
    (invalid_character_error 1 '@' [] 1 3 rfl)

/-- C8 counterexample: the claim says every consumed character advances the
column by 1 except a newline, which increments the line and resets the
column to 1.  A newline consumed inside a string literal does not increment
the line counter: in the source below the token for b starts after two
newline characters (offset 11), so the claim predicts line 3 for it
(claimLine gives 3), but the code assigns line 2, because the newline
inside the string was not consumed as a NEWLINE token. -/
theorem position_tracking_counterexample :
    tokenize ("a := \"x\ny\"\nb := 2") =
      .ok [⟨.IDENT, .s ("a"), 1, 1⟩, ⟨.ASSIGN_COLON, .s (":="), 1, 3⟩,
           ⟨.STRING, .s ("x\ny"), 1, 6⟩, ⟨.IDENT, .s ("b"), 2, 1⟩,
           ⟨.ASSIGN_COLON, .s (":="), 2, 3⟩, ⟨.NUMBER, .i 2, 2, 6⟩] ∧
    claimLine ("a := \"x\ny\"\nb := 2") 11 = 3 :=
  ⟨rfl, rfl⟩

/-- C8 amended: for every source that tokenizes without error, every token
has line and column at least 1, and the (line, column) pairs of successive
tokens are non-decreasing in lexicographic order.  Position tracking starts
at line 1, column 1; every consumed character advances the column by 1, and
a newline consumed as a NEWLINE token (outside any string literal)
increments the line and resets the column to 1, while a newline inside a
string literal advances the column like any other character and does not
increment the line. -/
theorem token_positions_monotone (s : String) (ts : List Token)
    (h : tokenize s = .ok ts) :
    (ts.all posOk && sortedPos ts) = true := by
  have h' : scan (s.data.length + 1) s.data 1 1 = .ok ts := h
  have hr := scan_inv (s.data.length + 1) s.data 1 1 ts h' (le_refl 1) (le_refl 1)
  rw [hr.1, hr.2.2.1]
  rfl

/-- C8 witness: the amended statement applied to a source containing a
multi-line string, a NEWLINE token and several tokens per line. -/
theorem token_positions_monotone_witness :
    (([⟨Kind.IDENT, .s ("a"), 1, 1⟩, ⟨Kind.ASSIGN_COLON, .s (":="), 1, 3⟩,
       ⟨Kind.STRING, .s ("x\ny"), 1, 6⟩, ⟨Kind.IDENT, .s ("b"), 2, 1⟩,
       ⟨Kind.ASSIGN_COLON, .s (":="), 2, 3⟩, ⟨Kind.NUMBER, .i 2, 2, 6⟩] : List Token).all posOk &&
      sortedPos [⟨Kind.IDENT, .s ("a"), 1, 1⟩, ⟨Kind.ASSIGN_COLON, .s (":="), 1, 3⟩,
       ⟨Kind.STRING, .s ("x\ny"), 1, 6⟩, ⟨Kind.IDENT, .s ("b"), 2, 1⟩,
       ⟨Kind.ASSIGN_COLON, .s (":="), 2, 3⟩, ⟨Kind.NUMBER, .i 2, 2, 6⟩]) = true :=
  token_positions_monotone ("a := \"x\ny\"\nb := 2") _ rfl

end Brik
